import Mathlib

/-!
# BookFinder: the `Book` component of `src/components/Book.jsx`

A shallow embedding of the component's state, its favorites operations, its
pagination arithmetic, the filter step of `fetchResults`, and the query
controller (the `[query]` and `[page]` effects with the debounce timer).

The component is a state machine: `step` takes a state and an event (an input of
the user, the passing of time, the settling of a request) to the next state. The
state updates made by one handler or callback are applied together when it
returns, and the effects of the render that follows run before the next event.
The `[favorites]` effect of lines 23-25, which writes the list to storage, reads
the state and changes none of it; it is not part of the machine.
-/

set_option autoImplicit false

namespace BookFinder

/-! ## Data model -/

/-- The record built by the `map` of `fetchResults` (lines 64-70): `key`, `title`,
`author_name` (already defaulted to `[]`), `first_publish_year` and `cover_i`
(both possibly `undefined`, here `none`). -/
structure BookRecord where
  key : String
  title : String
  author_name : List String
  first_publish_year : Option Int
  cover_i : Option Nat
  deriving DecidableEq, Repr

/-! ## Favorites (lines 94-107) -/

/-- The updater passed to `setFavorites` by `addFavorite(book)`:
`if (prev.find((b) => b.key === book.key)) return prev; return [book, ...prev];`. -/
def addFavorite (book : BookRecord) (prev : List BookRecord) : List BookRecord :=
  if (prev.find? (fun b => b.key == book.key)).isSome then prev
  else book :: prev

/-- The updater passed to `setFavorites` by `removeFavorite(key)`:
`prev.filter((b) => b.key !== key)`. -/
def removeFavorite (key : String) (prev : List BookRecord) : List BookRecord :=
  prev.filter (fun b => b.key != key)

/-- The test `favorites.some((b) => b.key === key)` of `isFavorited(key)`. -/
def isFavorited (favorites : List BookRecord) (key : String) : Bool :=
  favorites.any (fun b => b.key == key)

/-- The keys of a favorites list, in list order. -/
def keys (l : List BookRecord) : List String :=
  l.map (fun b => b.key)

/-- A favorites list is unique by key: no two records share a key. -/
def UniqueByKey (l : List BookRecord) : Prop :=
  (keys l).Nodup

instance (l : List BookRecord) : Decidable (UniqueByKey l) :=
  inferInstanceAs (Decidable (keys l).Nodup)

/-! ## Pagination (line 115 and lines 232-250) -/

/-- Line 115: `Math.max(1, Math.ceil(numFound / 100))`, the quotient taken in the
rationals. -/
def totalPages (numFound : Nat) : Nat :=
  max 1 ⌈(numFound : ℚ) / 100⌉₊

/-- The updater of the Prev button (line 236): `(p) => Math.max(1, p - 1)`. On the
naturals `p - 1` is truncated at `0`, which `max 1` absorbs exactly as it absorbs
the negative value in the source. -/
def prevPage (p : Nat) : Nat :=
  max 1 (p - 1)

/-- The updater of the Next button (line 245):
`(p) => Math.min(totalPages, p + 1)`, with `totalPages` of the current render. -/
def nextPage (numFound : Nat) (p : Nat) : Nat :=
  min (totalPages numFound) (p + 1)

/-! ## Built-ins of the host language used by the component -/

/-- Conversion `String(x)` for the year of a record (line 81): `undefined` prints as
`"undefined"`, an integer prints in decimal with a leading `-` when negative. -/
def jsString (year : Option Int) : String :=
  match year with
  | none => "undefined"
  | some n => toString n

/-- Built-in `Array.prototype.join` on an array of strings. -/
def join (sep : String) (parts : List String) : String :=
  String.intercalate sep parts

/-- Substring search on character lists: is `pat` found at the start of `s` or at
the start of some later suffix of `s`. -/
def includesChars : List Char → List Char → Bool
  | [], pat => pat.isPrefixOf []
  | c :: s, pat => pat.isPrefixOf (c :: s) || includesChars s pat

/-- Built-in `String.prototype.includes`: `s.includes(pat)`. -/
def includes (s pat : String) : Bool :=
  includesChars s.data pat.data

/-- White space and line terminators of the language, the characters removed by
`String.prototype.trim`. -/
def isWhiteSpace (c : Char) : Bool :=
  c.toNat ∈ [0x09, 0x0A, 0x0B, 0x0C, 0x0D, 0x20, 0xA0, 0x1680, 0x2028, 0x2029, 0x202F,
    0x205F, 0x3000, 0xFEFF] || (0x2000 ≤ c.toNat && c.toNat ≤ 0x200A)

/-- Built-in `String.prototype.trim`: white space is removed at both ends. -/
def trim (s : String) : String :=
  ⟨((s.data.dropWhile isWhiteSpace).reverse.dropWhile isWhiteSpace).reverse⟩

/-- The test `!query.trim()`: the trimmed text is the empty string. -/
def isBlank (query : String) : Bool :=
  trim query == ""

/-! ## The filter step of `fetchResults` (lines 72-84)

`String.prototype.toLowerCase` is a parameter `toLowerCase` of the definitions. -/

section Filter

variable (toLowerCase : String → String)

/-- The callback of `docs.filter` (lines 72-84), with its two early `return false`
and the final `return true`. A string is truthy when it is not empty;
`String(yearFilter)` is `yearFilter` itself. -/
def passesFilters (authorFilter yearFilter : String) (doc : BookRecord) : Bool :=
  if authorFilter != "" &&
      !(includes (toLowerCase (join " " doc.author_name)) (toLowerCase authorFilter)) then
    false
  else if yearFilter != "" && jsString doc.first_publish_year != yearFilter then
    false
  else
    true

/-- Line 72: `docs.filter(...)`. -/
def filterDocs (authorFilter yearFilter : String) (docs : List BookRecord) : List BookRecord :=
  docs.filter (passesFilters toLowerCase authorFilter yearFilter)

/-- The filter rule in the words of the specification: the author filter is
empty or the lower-cased joined author names contain the lower-cased filter text
as a contiguous substring, and the year filter is empty or the string
representation of the year equals it. -/
def PassesSpec (authorFilter yearFilter : String) (doc : BookRecord) : Prop :=
  (authorFilter = "" ∨
    (toLowerCase authorFilter).data <:+: (toLowerCase (join " " doc.author_name)).data) ∧
  (yearFilter = "" ∨ jsString doc.first_publish_year = yearFilter)

instance (authorFilter yearFilter : String) (doc : BookRecord) :
    Decidable (PassesSpec toLowerCase authorFilter yearFilter doc) := by
  unfold PassesSpec
  infer_instance

end Filter

/-- Lower-casing of the letters `A`-`Z` only; it is what `toLowerCase` does on
text whose cased letters are all ASCII, and it instantiates the parameter
`toLowerCase` in the concrete evaluations below. -/
def asciiLower (s : String) : String :=
  ⟨s.data.map Char.toLower⟩

/-! ## The component state and the search client (lines 6-21 and 53-92) -/

/-- The two display modes held by the `view` state. -/
inductive View where
  | search
  | favorites
  deriving DecidableEq, Repr

/-- One raw document `d` of the response; `author_name`, `first_publish_year`
and `cover_i` may be missing. -/
structure RawDoc where
  key : String
  title : String
  author_name : Option (List String)
  first_publish_year : Option Int
  cover_i : Option Nat
  deriving DecidableEq, Repr

/-- The parsed response body `data`; `numFound` and `docs` may be missing. -/
structure SearchData where
  numFound : Option Nat
  docs : Option (List RawDoc)
  deriving DecidableEq, Repr

/-- How one request ends: `fetch` rejects with a message, or a response arrives
with its HTTP status and with what `res.json()` gives (the data, or the message of
the exception it raises). -/
inductive FetchOutcome where
  | rejected (message : String)
  | response (status : Nat) (body : Except String SearchData)

/-- A request in flight: the arguments `q`, `p` of the call of `fetchResults`, and
the `authorFilter` and `yearFilter` of the render whose closure made the call. -/
structure Request where
  q : String
  p : Nat
  authorFilter : String
  yearFilter : String
  deriving DecidableEq, Repr

/-- A live timeout of the host: its id, the time at which it fires, and what the
callback of lines 36-39 captured (`query`, and through `fetchResults` the two
filters). -/
structure Timer where
  id : Nat
  due : Nat
  query : String
  authorFilter : String
  yearFilter : String
  deriving DecidableEq, Repr

/-- The state of the component (lines 6-21), the cleanup registered by the last
run of the `[query]` effect, and the part of the host it acts on: the clock (ms),
the live timeouts, the requests in flight and the log of dispatched requests. -/
structure State where
  query : String
  results : List BookRecord
  loading : Bool
  error : Option String
  page : Nat
  numFound : Nat
  authorFilter : String
  yearFilter : String
  view : View
  favorites : List BookRecord
  timerRef : Option Nat
  lastQueryRef : String
  queryCleanup : Bool
  now : Nat
  nextTimerId : Nat
  timers : List Timer
  inflight : List Request
  fetchLog : List (String × Nat)
  deriving DecidableEq, Repr

/-- Property `res.ok` of a response: the status is in the range 200-299. -/
def isOk (status : Nat) : Bool :=
  200 ≤ status && status ≤ 299

/-- Lines 64-70: the mapping of a raw document, `d.author_name || []`. -/
def mapDoc (d : RawDoc) : BookRecord :=
  { key := d.key
    title := d.title
    author_name := d.author_name.getD []
    first_publish_year := d.first_publish_year
    cover_i := d.cover_i }

/-- Lines 54-60, the part of `fetchResults(q, p)` before the first `await`:
`setLoading(true)`, `setError(null)` and the call of `fetch` for `(q, p)`. The two
filters are those of the closure that makes the call. -/
def fetchResultsDispatch (authorFilter yearFilter q : String) (p : Nat) (s : State) : State :=
  { s with
    loading := true
    error := none
    inflight := s.inflight ++ [⟨q, p, authorFilter, yearFilter⟩]
    fetchLog := s.fetchLog ++ [(q, p)] }

/-- Lines 60-62: what the two `await`s of the `try` block give, an exception
(`Except.error`, with its message) or `data`. -/
def awaitData (outcome : FetchOutcome) : Except String SearchData :=
  match outcome with
  | .rejected message => .error message
  | .response status body =>
    if !isOk status then .error ("HTTP " ++ toString status)
    else body

section Settle

variable (toLowerCase : String → String)

/-- Lines 56-86: the `try` block, from its `await`s on. -/
def tryBlock (r : Request) (outcome : FetchOutcome) (s : State) : Except String State := do
  let data ← awaitData outcome
  let s := { s with numFound := data.numFound.getD 0 }
  let docs := (data.docs.getD []).map mapDoc
  let filtered := filterDocs toLowerCase r.authorFilter r.yearFilter docs
  pure { s with results := filtered }

/-- Lines 56-91, the part of `fetchResults` that runs when the request `r` is
settled: the `try` block, `catch (err) { setError(err.message) }` and
`finally { setLoading(false) }`. -/
def fetchResultsSettle (r : Request) (outcome : FetchOutcome) (s : State) : State :=
  match tryBlock toLowerCase r outcome s with
  | .ok s => { s with loading := false }
  | .error message => { s with error := some message, loading := false }

end Settle

/-! ## The query controller (lines 27-51) and the event handlers -/

/-- Built-in `clearTimeout(id)`: the timeout with that id, if live, is cancelled;
`clearTimeout(null)` does nothing. -/
def clearTimeout (id : Option Nat) (s : State) : State :=
  match id with
  | none => s
  | some id => { s with timers := s.timers.filter (fun t => t.id != id) }

/-- The test `if (timerRef.current)`: the ref holds a number other than 0. -/
def truthy (ref : Option Nat) : Bool :=
  match ref with
  | none => false
  | some id => id != 0

/-- Lines 44-51, the `[page]` effect, run in the state of the render that
committed a new `page`. -/
def pageEffect (s : State) : State :=
  if isBlank s.query then s
  else if s.lastQueryRef == s.query then
    fetchResultsDispatch s.authorFilter s.yearFilter s.query s.page s
  else
    { s with lastQueryRef := s.query }

/-- A `setPage` is committed: nothing happens when the value is the current one,
otherwise the component renders again and the `[page]` effect runs. -/
def commitPage (p : Nat) (s : State) : State :=
  if p = s.page then s else pageEffect { s with page := p }

/-- What precedes the test of line 29 when the `[query]` effect runs again: the
cleanup returned by its previous run (line 41, `clearTimeout(timerRef.current)`),
if that run returned one, then line 28. -/
def cancelPending (s : State) : State :=
  let s := if s.queryCleanup then clearTimeout s.timerRef s else s
  if truthy s.timerRef then clearTimeout s.timerRef s else s

/-- Lines 27-42, the `[query]` effect, run in the state of the render that
committed a new `query`: the cleanup of its previous run and line 28, then the
body from line 29 on. -/
def queryEffect (s : State) : State :=
  let s := cancelPending s
  if isBlank s.query then
    commitPage 1 { s with results := [], numFound := 0, error := none, queryCleanup := false }
  else
    { s with
      timerRef := some s.nextTimerId
      nextTimerId := s.nextTimerId + 1
      timers := s.timers ++ [⟨s.nextTimerId, s.now + 500, s.query, s.authorFilter, s.yearFilter⟩]
      queryCleanup := true }

/-- Lines 36-39, the callback of the timeout: `setPage(1); fetchResults(query, 1);`.
The request is dispatched inside the callback, and the render that commits the
page follows it. -/
def timerCallback (t : Timer) (s : State) : State :=
  commitPage 1 (fetchResultsDispatch t.authorFilter t.yearFilter t.query 1 s)

/-- The timeouts of `due` fire in turn; one that is no longer live is skipped. -/
def fireTimers (due : List Timer) (s : State) : State :=
  match due with
  | [] => s
  | t :: rest =>
    if t ∈ s.timers then
      fireTimers rest (timerCallback t { s with timers := s.timers.erase t })
    else fireTimers rest s

/-- What the user and the host can do to the component. -/
inductive Event where
  | changeQuery (text : String)
  | submit
  | changeAuthorFilter (text : String)
  | changeYearFilter (text : String)
  | clearFilters
  | setView (v : View)
  | clickPrev
  | clickNext
  | addFavorite (book : BookRecord)
  | removeFavorite (key : String)
  | elapse (ms : Nat)
  | settle (i : Nat) (outcome : FetchOutcome)

section Step

variable (toLowerCase : String → String)

/-- One event, with the renders and effects it leads to.
* `changeQuery`: line 151, `setQuery(e.target.value)`; a new value runs the
  `[query]` effect.
* `submit`: lines 142-145.
* the filter inputs and the Clear button: lines 164, 169, 173-176 (search view).
* `clickPrev`, `clickNext`: lines 232-250, rendered in the search view when
  `numFound > 0`, each disabled as in lines 235 and 244.
* `elapse`: the clock advances and the timeouts that are due fire.
* `settle`: the request at index `i` of those in flight is settled. -/
def step (s : State) (e : Event) : State :=
  match e with
  | .changeQuery text =>
    if text = s.query then s else queryEffect { s with query := text }
  | .submit => fetchResultsDispatch s.authorFilter s.yearFilter s.query 1 s
  | .changeAuthorFilter text =>
    if s.view = .search then { s with authorFilter := text } else s
  | .changeYearFilter text =>
    if s.view = .search then { s with yearFilter := text } else s
  | .clearFilters =>
    if s.view = .search then { s with authorFilter := "", yearFilter := "" } else s
  | .setView v => { s with view := v }
  | .clickPrev =>
    if s.view = .search ∧ 0 < s.numFound ∧ ¬ s.page = 1 then commitPage (prevPage s.page) s
    else s
  | .clickNext =>
    if s.view = .search ∧ 0 < s.numFound ∧ ¬ s.page ≥ totalPages s.numFound then
      commitPage (nextPage s.numFound s.page) s
    else s
  | .addFavorite book => { s with favorites := addFavorite book s.favorites }
  | .removeFavorite key => { s with favorites := removeFavorite key s.favorites }
  | .elapse ms =>
    let s := { s with now := s.now + ms }
    fireTimers (s.timers.filter (fun t => t.due ≤ s.now)) s
  | .settle i outcome =>
    match s.inflight.get? i with
    | none => s
    | some r => fetchResultsSettle toLowerCase r outcome { s with inflight := s.inflight.eraseIdx i }

/-- The events of a list, in order. -/
def run (s : State) (es : List Event) : State :=
  es.foldl (step toLowerCase) s

end Step

/-- The state of the first render (lines 6-21), with the favorites given by the
initializer of lines 15-18. -/
def initialState (favorites : List BookRecord) : State :=
  { query := ""
    results := []
    loading := false
    error := none
    page := 1
    numFound := 0
    authorFilter := ""
    yearFilter := ""
    view := .search
    favorites := favorites
    timerRef := none
    lastQueryRef := ""
    queryCleanup := false
    now := 0
    nextTimerId := 1
    timers := []
    inflight := []
    fetchLog := [] }

/-- The component after mounting: the `[query]` effect and the `[page]` effect
have run once, in that order. -/
def mounted (favorites : List BookRecord) : State :=
  pageEffect (queryEffect (initialState favorites))

/-- The states the component can be in: the mounted state and what events lead
to from it. -/
inductive Reachable (toLowerCase : String → String) : State → Prop where
  | mounted (favorites : List BookRecord) : Reachable toLowerCase (mounted favorites)
  | step (s : State) (e : Event) :
      Reachable toLowerCase s → Reachable toLowerCase (step toLowerCase s e)

/-- The timers invariant: every live timeout is the one `timerRef.current` names,
and the last run of the `[query]` effect has returned its cleanup. -/
def TimerInv (s : State) : Prop :=
  ∀ t ∈ s.timers, s.timerRef = some t.id ∧ s.queryCleanup = true

/-! ## The favorites initializer (lines 15-18)

`JSON.parse` is modelled by a parser of the JSON grammar that returns the syntax
tree of the text. -/

/-- A parsed JSON text, as a syntax tree: numbers and strings keep their lexeme
(for a string, the characters between the quotes, escapes not decoded). -/
inductive Json where
  | null
  | bool (b : Bool)
  | number (lexeme : String)
  | string (lexeme : String)
  | array (items : List Json)
  | object (members : List (String × Json))

/-- The white space of the JSON grammar: space, tab, line feed, carriage return. -/
def isJsonWs (c : Char) : Bool :=
  c.toNat == 0x20 || c.toNat == 0x09 || c.toNat == 0x0A || c.toNat == 0x0D

/-- Leading JSON white space is dropped. -/
def skipWs (cs : List Char) : List Char :=
  cs.dropWhile isJsonWs

/-- A decimal digit `0`-`9`. -/
def isDigit (c : Char) : Bool :=
  0x30 ≤ c.toNat && c.toNat ≤ 0x39

/-- A hexadecimal digit. -/
def isHex (c : Char) : Bool :=
  isDigit c || (0x41 ≤ c.toNat && c.toNat ≤ 0x46) || (0x61 ≤ c.toNat && c.toNat ≤ 0x66)

/-- The characters that may follow a backslash, `u` apart: `"`, `\`, `/`, `b`,
`f`, `n`, `r`, `t`. -/
def isSimpleEscape (c : Char) : Bool :=
  c.toNat ∈ [0x22, 0x5C, 0x2F, 0x62, 0x66, 0x6E, 0x72, 0x74]

/-- The rest of a string after its opening quote: the lexeme up to the closing
quote and what follows it, or `none` when the string is malformed. -/
def stringBody : List Char → List Char → Option (String × List Char)
  | [], _ => none
  | c :: rest, acc =>
    if c.toNat == 0x22 then some (⟨acc.reverse⟩, rest)
    else if c.toNat == 0x5C then
      match rest with
      | e :: rest₁ =>
        if isSimpleEscape e then stringBody rest₁ (e :: c :: acc)
        else if e.toNat == 0x75 then
          match rest₁ with
          | h₁ :: h₂ :: h₃ :: h₄ :: rest₂ =>
            if isHex h₁ && isHex h₂ && isHex h₃ && isHex h₄ then
              stringBody rest₂ (h₄ :: h₃ :: h₂ :: h₁ :: e :: c :: acc)
            else none
          | _ => none
        else none
      | [] => none
    else if c.toNat < 0x20 then none
    else stringBody rest (c :: acc)

/-- One or more digits: the digits and what follows them. -/
def digits1 (cs : List Char) : Option (List Char × List Char) :=
  match cs.span isDigit with
  | ([], _) => none
  | (ds, rest) => some (ds, rest)

/-- The `int` of the number grammar: `0`, or a digit `1`-`9` and further digits. -/
def intPart (cs : List Char) : Option (List Char × List Char) :=
  match cs with
  | [] => none
  | c :: rest =>
    if c.toNat == 0x30 then some ([c], rest)
    else if isDigit c then some (c :: (rest.span isDigit).1, (rest.span isDigit).2)
    else none

/-- The optional `frac` of the number grammar: `.` and one or more digits. -/
def fracPart (cs : List Char) : Option (List Char × List Char) :=
  match cs with
  | c :: rest =>
    if c.toNat == 0x2E then (digits1 rest).map (fun r => (c :: r.1, r.2))
    else some ([], cs)
  | [] => some ([], cs)

/-- The optional `exp` of the number grammar: `e` or `E`, an optional sign, and
one or more digits. -/
def expPart (cs : List Char) : Option (List Char × List Char) :=
  match cs with
  | c :: rest =>
    if c.toNat == 0x65 || c.toNat == 0x45 then
      match rest with
      | sgn :: rest₁ =>
        if sgn.toNat == 0x2B || sgn.toNat == 0x2D then
          (digits1 rest₁).map (fun r => (c :: sgn :: r.1, r.2))
        else (digits1 rest).map (fun r => (c :: r.1, r.2))
      | [] => none
    else some ([], cs)
  | [] => some ([], cs)

/-- A number: optional `-`, `int`, optional `frac`, optional `exp`. -/
def numberLexeme (cs : List Char) : Option (String × List Char) :=
  let (sign, cs₁) :=
    match cs with
    | c :: rest => if c.toNat == 0x2D then ([c], rest) else ([], cs)
    | [] => ([], cs)
  match intPart cs₁ with
  | none => none
  | some (i, cs₂) =>
    match fracPart cs₂ with
    | none => none
    | some (f, cs₃) =>
      match expPart cs₃ with
      | none => none
      | some (e, cs₄) => some (⟨sign ++ i ++ f ++ e⟩, cs₄)

/-- The input starts with the given word: what follows it. -/
def afterWord (word : List Char) (cs : List Char) : Option (List Char) :=
  if word.isPrefixOf cs then some (cs.drop word.length) else none

mutual

/-- A value at the head of `cs`: the value and what follows it. -/
def parseValue : Nat → List Char → Except String (Json × List Char)
  | 0, _ => .error "nesting too deep"
  | fuel + 1, cs =>
    match cs with
    | [] => .error "SyntaxError"
    | c :: rest =>
      if c.toNat == 0x7B then
        match skipWs rest with
        | d :: rest₁ =>
          if d.toNat == 0x7D then .ok (.object [], rest₁)
          else parseMembers fuel (d :: rest₁) []
        | [] => .error "SyntaxError"
      else if c.toNat == 0x5B then
        match skipWs rest with
        | d :: rest₁ =>
          if d.toNat == 0x5D then .ok (.array [], rest₁)
          else parseItems fuel (d :: rest₁) []
        | [] => .error "SyntaxError"
      else if c.toNat == 0x22 then
        match stringBody rest [] with
        | some (s, rest₁) => .ok (.string s, rest₁)
        | none => .error "SyntaxError"
      else
        match afterWord "true".data cs, afterWord "false".data cs, afterWord "null".data cs with
        | some rest₁, _, _ => .ok (.bool true, rest₁)
        | _, some rest₁, _ => .ok (.bool false, rest₁)
        | _, _, some rest₁ => .ok (.null, rest₁)
        | none, none, none =>
          match numberLexeme cs with
          | some (n, rest₁) => .ok (.number n, rest₁)
          | none => .error "SyntaxError"

/-- The items of an array from the head of `cs` (at an item) to the closing `]`. -/
def parseItems : Nat → List Char → List Json → Except String (Json × List Char)
  | 0, _, _ => .error "nesting too deep"
  | fuel + 1, cs, acc =>
    match parseValue fuel cs with
    | .error e => .error e
    | .ok (v, rest) =>
      match skipWs rest with
      | d :: rest₁ =>
        if d.toNat == 0x5D then .ok (.array (acc ++ [v]), rest₁)
        else if d.toNat == 0x2C then parseItems fuel (skipWs rest₁) (acc ++ [v])
        else .error "SyntaxError"
      | [] => .error "SyntaxError"

/-- The members of an object from the head of `cs` (at a member) to the closing
`}`. -/
def parseMembers : Nat → List Char → List (String × Json) →
    Except String (Json × List Char)
  | 0, _, _ => .error "nesting too deep"
  | fuel + 1, cs, acc =>
    match cs with
    | q :: rest =>
      if q.toNat == 0x22 then
        match stringBody rest [] with
        | none => .error "SyntaxError"
        | some (k, rest₁) =>
          match skipWs rest₁ with
          | colon :: rest₂ =>
            if colon.toNat == 0x3A then
              match parseValue fuel (skipWs rest₂) with
              | .error e => .error e
              | .ok (v, rest₃) =>
                match skipWs rest₃ with
                | d :: rest₄ =>
                  if d.toNat == 0x7D then .ok (.object (acc ++ [(k, v)]), rest₄)
                  else if d.toNat == 0x2C then
                    parseMembers fuel (skipWs rest₄) (acc ++ [(k, v)])
                  else .error "SyntaxError"
                | [] => .error "SyntaxError"
            else .error "SyntaxError"
          | [] => .error "SyntaxError"
      else .error "SyntaxError"
    | [] => .error "SyntaxError"

end

/-- Built-in `JSON.parse(text)`: white space, one value, white space, and nothing
else; `Except.error` is the exception it throws. The fuel given here is enough
for every text (`jsonParse_error` below). -/
def jsonParse (text : String) : Except String Json :=
  match parseValue (2 * text.length + 2) (skipWs text.data) with
  | .error e => .error e
  | .ok (v, rest) =>
    match skipWs rest with
    | [] => .ok v
    | _ :: _ => .error "SyntaxError"

/-- Lines 15-18, the initializer of `favorites`:
`const raw = localStorage.getItem("bf_favorites_v1"); return raw ? JSON.parse(raw) : [];`.
`raw` is `none` when the slot is absent (`getItem` gives `null`); a string is
truthy when it is not empty; an exception of `JSON.parse` leaves the initializer
(`Except.error`), nothing catches it. -/
def loadFavorites (raw : Option String) : Except String Json :=
  match raw with
  | none => .ok (.array [])
  | some text => if text = "" then .ok (.array []) else jsonParse text

/-! ## The scenario of the specification: the query "dune" -/

/-- A page of 100 documents, as the endpoint returns for "dune". -/
def duneDocs : List RawDoc :=
  List.replicate 100
    ⟨"/works/OL893415W", "Dune", some ["Frank Herbert"], some 1965, some 11481354⟩

/-- The user types "dune", 500 ms pass, and the endpoint answers the request with
status 200, `numFound = 120` and 100 documents. -/
def duneSearch : List Event :=
  [.changeQuery "dune", .elapse 500, .settle 0 (.response 200 (.ok ⟨some 120, some duneDocs⟩))]

/-- After the search for "dune": the user clicks Next, then edits the query to
"dunes" and, 100 ms later, back to "dune". -/
def duneRetyped : List Event :=
  duneSearch ++ [.clickNext, .changeQuery "dunes", .elapse 100, .changeQuery "dune"]

/-! ## Theorems -/

theorem find_isSome_iff_mem_keys (k : String) (l : List BookRecord) :
    (l.find? (fun b => b.key == k)).isSome = true ↔ k ∈ keys l := by
  simp [keys, List.find?_isSome]

theorem addFavorite_of_mem (b : BookRecord) (l : List BookRecord) (h : b.key ∈ keys l) :
    addFavorite b l = l := by
  unfold addFavorite
  rw [if_pos ((find_isSome_iff_mem_keys b.key l).2 h)]

theorem addFavorite_of_not_mem (b : BookRecord) (l : List BookRecord) (h : b.key ∉ keys l) :
    addFavorite b l = b :: l := by
  unfold addFavorite
  rw [if_neg (fun hs => h ((find_isSome_iff_mem_keys b.key l).1 hs))]

theorem mem_keys_addFavorite (b : BookRecord) (l : List BookRecord) :
    b.key ∈ keys (addFavorite b l) := by
  by_cases h : b.key ∈ keys l
  · rw [addFavorite_of_mem b l h]; exact h
  · rw [addFavorite_of_not_mem b l h]; simp [keys]

theorem uniqueByKey_addFavorite (b : BookRecord) (l : List BookRecord) (hl : UniqueByKey l) :
    UniqueByKey (addFavorite b l) := by
  by_cases h : b.key ∈ keys l
  · rw [addFavorite_of_mem b l h]; exact hl
  · rw [addFavorite_of_not_mem b l h]
    exact List.nodup_cons.2 ⟨h, hl⟩

theorem keys_removeFavorite (k : String) (l : List BookRecord) :
    keys (removeFavorite k l) = (keys l).filter (fun x => x != k) := by
  simp [keys, removeFavorite, List.filter_map, Function.comp_def]

theorem isFavorited_iff_mem_keys (l : List BookRecord) (k : String) :
    isFavorited l k = true ↔ k ∈ keys l := by
  simp [isFavorited, keys]

theorem ceil_div_hundred (n : Nat) : ⌈(n : ℚ) / 100⌉₊ = (n + 99) / 100 := by
  apply eq_of_forall_ge_iff
  intro m
  rw [Nat.ceil_le, div_le_iff₀ (by norm_num)]
  constructor
  · intro h
    have h2 : n ≤ m * 100 := by exact_mod_cast h
    omega
  · intro h
    have h2 : n ≤ m * 100 := by omega
    exact_mod_cast h2

theorem totalPages_eq (n : Nat) : totalPages n = max 1 ((n + 99) / 100) := by
  rw [totalPages, ceil_div_hundred]

/-! ### Favorites -/

/-- C5, as stated, fails: on the favorites list with keys `/works/A`, `/works/B`
(unique by key), `addFavorite` of the record with key `/works/B` returns the list
unchanged, so that key sits at index 1 and not at the front. -/
theorem addFavorite_front_counterexample :
    ¬ (∀ (l : List BookRecord) (b : BookRecord), UniqueByKey l →
        addFavorite b (addFavorite b l) = addFavorite b l ∧
        (keys (addFavorite b l)).count b.key = 1 ∧
        (keys (addFavorite b l))[0]? = some b.key) := by
  intro h
  have h3 := (h [⟨"/works/A", "A", [], none, none⟩, ⟨"/works/B", "B", [], none, none⟩]
    ⟨"/works/B", "B", [], none, none⟩ (by decide)).2.2
  revert h3
  decide

/-- C5, amended: for a favorites list `l` unique by key and a book `b`,
`addFavorite b` applied twice equals `addFavorite b` applied once, the key of `b`
appears exactly once in that list, it is at the front (index 0) when `l` held no
record with that key, and otherwise the list is `l` itself. -/
theorem addFavorite_idempotent (l : List BookRecord) (b : BookRecord) (hl : UniqueByKey l) :
    addFavorite b (addFavorite b l) = addFavorite b l ∧
    (keys (addFavorite b l)).count b.key = 1 ∧
    (b.key ∉ keys l → (keys (addFavorite b l))[0]? = some b.key) ∧
    (b.key ∈ keys l → addFavorite b l = l) := by
  refine ⟨addFavorite_of_mem b _ (mem_keys_addFavorite b l), ?_, ?_, addFavorite_of_mem b l⟩
  · exact List.count_eq_one_of_mem (uniqueByKey_addFavorite b l hl) (mem_keys_addFavorite b l)
  · intro h
    rw [addFavorite_of_not_mem b l h]
    simp [keys]

theorem addFavorite_idempotent_witness :
    UniqueByKey [(⟨"/works/A", "A", [], none, none⟩ : BookRecord)] ∧
    addFavorite ⟨"/works/B", "B", [], none, none⟩
        (addFavorite ⟨"/works/B", "B", [], none, none⟩ [⟨"/works/A", "A", [], none, none⟩]) =
      [⟨"/works/B", "B", [], none, none⟩, ⟨"/works/A", "A", [], none, none⟩] :=
  ⟨by decide,
   ((addFavorite_idempotent [⟨"/works/A", "A", [], none, none⟩]
      ⟨"/works/B", "B", [], none, none⟩ (by decide)).1).trans (by decide)⟩

/-- C7: when no record of `l` has key `k`, `removeFavorite k` yields the same
records in the same order as `l`. -/
theorem removeFavorite_absent (l : List BookRecord) (k : String) (h : k ∉ keys l) :
    removeFavorite k l = l := by
  unfold removeFavorite
  rw [List.filter_eq_self]
  intro a ha
  have hne : a.key ≠ k := fun e => h (e ▸ List.mem_map_of_mem (fun b => b.key) ha)
  simpa using hne

theorem removeFavorite_absent_witness :
    "/works/Z" ∉ keys [(⟨"/works/A", "A", [], none, none⟩ : BookRecord)] ∧
    removeFavorite "/works/Z" [⟨"/works/A", "A", [], none, none⟩] =
      [⟨"/works/A", "A", [], none, none⟩] :=
  ⟨by decide, removeFavorite_absent _ _ (by decide)⟩

/-- C9: if no two records of `l` share a key, the same holds after
`addFavorite b` and after `removeFavorite k`; after `addFavorite b` the test
`isFavorited b.key` is true and after `removeFavorite k` the test `isFavorited k`
is false. -/
theorem favorites_unique_invariant (l : List BookRecord) (b : BookRecord) (k : String)
    (hl : UniqueByKey l) :
    UniqueByKey (addFavorite b l) ∧ UniqueByKey (removeFavorite k l) ∧
    isFavorited (addFavorite b l) b.key = true ∧
    isFavorited (removeFavorite k l) k = false := by
  refine ⟨uniqueByKey_addFavorite b l hl, ?_, ?_, ?_⟩
  · unfold UniqueByKey
    rw [keys_removeFavorite]
    exact List.Nodup.filter _ hl
  · exact (isFavorited_iff_mem_keys _ _).2 (mem_keys_addFavorite b l)
  · rw [← Bool.not_eq_true, isFavorited_iff_mem_keys, keys_removeFavorite]
    simp

theorem favorites_unique_invariant_witness :
    UniqueByKey [(⟨"/works/A", "A", [], none, none⟩ : BookRecord)] ∧
    UniqueByKey (addFavorite ⟨"/works/B", "B", [], none, none⟩
      [⟨"/works/A", "A", [], none, none⟩]) :=
  ⟨by decide, (favorites_unique_invariant [⟨"/works/A", "A", [], none, none⟩]
      ⟨"/works/B", "B", [], none, none⟩ "/works/A" (by decide)).1⟩

/-! ### Pagination -/

/-- C8: `totalPages` is `max(1, ceil(numFound / 100))`, that is, the least
number of pages `n ≥ 1` with `numFound ≤ 100 * n`; `numFound = 250` gives 3; and
for every `numFound` and every `page` with `1 ≤ page ≤ totalPages` both the page
of the Prev handler and the page of the Next handler lie in `[1, totalPages]`. -/
theorem pagination_bounds (numFound : Nat) :
    (1 ≤ totalPages numFound ∧ numFound ≤ 100 * totalPages numFound ∧
      ∀ n, 1 ≤ n → numFound ≤ 100 * n → totalPages numFound ≤ n) ∧
    totalPages 250 = 3 ∧
    ∀ page, 1 ≤ page → page ≤ totalPages numFound →
      (1 ≤ prevPage page ∧ prevPage page ≤ totalPages numFound) ∧
      (1 ≤ nextPage numFound page ∧ nextPage numFound page ≤ totalPages numFound) := by
  refine ⟨?_, by simp [totalPages_eq], ?_⟩
  · rw [totalPages_eq]
    refine ⟨by omega, by omega, ?_⟩
    intro n h1 h2
    omega
  · intro page h1 h2
    unfold prevPage nextPage
    omega

theorem pagination_bounds_witness :
    (1 ≤ 3 ∧ 3 ≤ totalPages 250) ∧ prevPage 3 = 2 ∧ nextPage 250 3 ≤ totalPages 250 :=
  ⟨⟨by decide, by simp [totalPages_eq]⟩, by decide,
   ((pagination_bounds 250).2.2 3 (by decide) (by simp [totalPages_eq])).2.2⟩

/-! ### Filter Engine -/

theorem includesChars_iff (s pat : List Char) : includesChars s pat = true ↔ pat <:+: s := by
  induction s with
  | nil => simp [includesChars]
  | cons c t ih =>
    rw [includesChars, Bool.or_eq_true, ih, List.infix_cons_iff, List.isPrefixOf_iff_prefix]

theorem passesFilters_iff (toLowerCase : String → String) (authorFilter yearFilter : String)
    (doc : BookRecord) :
    passesFilters toLowerCase authorFilter yearFilter doc = true ↔
      PassesSpec toLowerCase authorFilter yearFilter doc := by
  unfold passesFilters PassesSpec includes
  by_cases ha : authorFilter = "" <;> by_cases hy : yearFilter = "" <;>
    by_cases hi : includesChars (toLowerCase (join " " doc.author_name)).data
      (toLowerCase authorFilter).data = true <;>
    by_cases hj : jsString doc.first_publish_year = yearFilter <;>
    simp [ha, hy, hi, hj, ← includesChars_iff]

theorem filterDocs_eq_spec (toLowerCase : String → String) (authorFilter yearFilter : String)
    (docs : List BookRecord) :
    filterDocs toLowerCase authorFilter yearFilter docs =
      docs.filter (fun d => decide (PassesSpec toLowerCase authorFilter yearFilter d)) := by
  unfold filterDocs
  congr 1
  funext d
  rw [Bool.eq_iff_iff, passesFilters_iff, decide_eq_true_iff]

/-- C4: for every list of mapped records and every `authorFilter` and
`yearFilter`, the filter step keeps exactly the records, in their original order,
that satisfy the rule of the specification; and on the records of Jane Austen
(1813) and Leo Tolstoy (1813), `authorFilter = "austen"` keeps only the first,
`yearFilter = "1813"` with no author filter keeps both, and `"austen"` with
`"1900"` keeps none. The first part holds for every lower-casing function, the
example for every one that sends its three texts to their lower-case forms. -/
theorem filter_engine (toLowerCase : String → String) :
    (∀ (docs : List BookRecord) (authorFilter yearFilter : String),
      filterDocs toLowerCase authorFilter yearFilter docs =
        docs.filter (fun d => decide (PassesSpec toLowerCase authorFilter yearFilter d))) ∧
    (toLowerCase "Jane Austen" = "jane austen" → toLowerCase "Leo Tolstoy" = "leo tolstoy" →
      toLowerCase "austen" = "austen" →
      ∀ (k₁ t₁ k₂ t₂ : String) (c₁ c₂ : Option Nat),
        filterDocs toLowerCase "austen" ""
            [⟨k₁, t₁, ["Jane Austen"], some 1813, c₁⟩,
             ⟨k₂, t₂, ["Leo Tolstoy"], some 1813, c₂⟩] =
          [⟨k₁, t₁, ["Jane Austen"], some 1813, c₁⟩] ∧
        filterDocs toLowerCase "" "1813"
            [⟨k₁, t₁, ["Jane Austen"], some 1813, c₁⟩,
             ⟨k₂, t₂, ["Leo Tolstoy"], some 1813, c₂⟩] =
          [⟨k₁, t₁, ["Jane Austen"], some 1813, c₁⟩,
           ⟨k₂, t₂, ["Leo Tolstoy"], some 1813, c₂⟩] ∧
        filterDocs toLowerCase "austen" "1900"
            [⟨k₁, t₁, ["Jane Austen"], some 1813, c₁⟩,
             ⟨k₂, t₂, ["Leo Tolstoy"], some 1813, c₂⟩] =
          []) := by
  have hj : join " " ["Jane Austen"] = "Jane Austen" := by decide
  have hl : join " " ["Leo Tolstoy"] = "Leo Tolstoy" := by decide
  have h1 : includes "jane austen" "austen" = true := by decide
  have h2 : includes "leo tolstoy" "austen" = false := by decide
  have hy : jsString (some 1813) = "1813" := by decide
  refine ⟨fun docs a y => filterDocs_eq_spec toLowerCase a y docs, ?_⟩
  intro hJane hLeo hAusten k₁ t₁ k₂ t₂ c₁ c₂
  refine ⟨?_, ?_, ?_⟩
  · simp [filterDocs, passesFilters, List.filter, hj, hl, hJane, hLeo, hAusten, h1, h2]
  · simp [filterDocs, passesFilters, List.filter, hy]
  · simp [filterDocs, passesFilters, List.filter, hj, hl, hJane, hLeo, hAusten, h1, h2, hy]

theorem filter_engine_witness :
    (asciiLower "Jane Austen" = "jane austen" ∧ asciiLower "Leo Tolstoy" = "leo tolstoy" ∧
      asciiLower "austen" = "austen") ∧
    filterDocs asciiLower "austen" ""
        [⟨"/works/OL1W", "Emma", ["Jane Austen"], some 1813, none⟩,
         ⟨"/works/OL2W", "War and Peace", ["Leo Tolstoy"], some 1813, some 7⟩] =
      [⟨"/works/OL1W", "Emma", ["Jane Austen"], some 1813, none⟩] :=
  ⟨by decide,
   ((filter_engine asciiLower).2 (by decide) (by decide) (by decide)
      "/works/OL1W" "Emma" "/works/OL2W" "War and Peace" none (some 7)).1⟩

/-! ### Query controller: the timers invariant -/

theorem timers_eq_nil_of_inv (s : State) (h : TimerInv s)
    (hn : s.timerRef = none ∨ s.queryCleanup = false) : s.timers = [] := by
  cases ht : s.timers with
  | nil => rfl
  | cons t ts =>
    have ht2 := h t (by rw [ht]; exact List.mem_cons_self _ _)
    rcases hn with hn | hn
    · rw [hn] at ht2; exact absurd ht2.1 (by simp)
    · rw [hn] at ht2; exact absurd ht2.2 (by simp)

theorem cancelPending_eq (s : State) (h : TimerInv s) :
    cancelPending s = { s with timers := [] } := by
  have hf : ∀ id, s.timerRef = some id → s.timers.filter (fun t => t.id != id) = [] := by
    intro id hid
    rw [List.filter_eq_nil_iff]
    intro t ht
    have := (h t ht).1
    rw [hid] at this
    simp [Option.some.inj this]
  cases hc : s.queryCleanup
  · have hnil := timers_eq_nil_of_inv s h (Or.inr hc)
    cases hr : s.timerRef with
    | none =>
      cases s
      simp_all [cancelPending, clearTimeout, truthy]
    | some id =>
      cases s
      simp_all [cancelPending, clearTimeout, truthy]
  · cases hr : s.timerRef with
    | none =>
      have hnil := timers_eq_nil_of_inv s h (Or.inl hr)
      cases s
      simp_all [cancelPending, clearTimeout, truthy]
    | some id =>
      have hfid := hf id hr
      cases s
      simp_all [cancelPending, clearTimeout, truthy]

theorem pageEffect_blank (s : State) (hb : isBlank s.query = true) : pageEffect s = s := by
  simp [pageEffect, hb]

theorem commitPage_blank (p : Nat) (s : State) (hb : isBlank s.query = true) :
    commitPage p s = { s with page := p } := by
  unfold commitPage
  split
  · next h => subst h; rfl
  · exact pageEffect_blank _ hb

theorem pageEffect_frame (s : State) :
    (pageEffect s).timers = s.timers ∧ (pageEffect s).timerRef = s.timerRef ∧
    (pageEffect s).queryCleanup = s.queryCleanup := by
  unfold pageEffect
  split
  · exact ⟨rfl, rfl, rfl⟩
  · split <;> exact ⟨rfl, rfl, rfl⟩

theorem commitPage_frame (p : Nat) (s : State) :
    (commitPage p s).timers = s.timers ∧ (commitPage p s).timerRef = s.timerRef ∧
    (commitPage p s).queryCleanup = s.queryCleanup := by
  unfold commitPage
  split
  · exact ⟨rfl, rfl, rfl⟩
  · exact pageEffect_frame _

theorem timerInv_of_frame (s s' : State) (h : TimerInv s)
    (hf : s'.timers = s.timers ∧ s'.timerRef = s.timerRef ∧ s'.queryCleanup = s.queryCleanup) :
    TimerInv s' := by
  intro t ht
  rw [hf.1] at ht
  rw [hf.2.1, hf.2.2]
  exact h t ht

theorem timerInv_queryEffect (s : State) (h : TimerInv s) : TimerInv (queryEffect s) := by
  unfold queryEffect
  rw [cancelPending_eq s h]
  dsimp only
  split
  · intro t ht
    rw [(commitPage_frame _ _).1] at ht
    exact absurd ht (List.not_mem_nil t)
  · intro t ht
    simp only [List.nil_append, List.mem_singleton] at ht
    subst ht
    exact ⟨rfl, rfl⟩

theorem timerInv_timerCallback (t : Timer) (s : State) (h : TimerInv s) :
    TimerInv (timerCallback t s) :=
  timerInv_of_frame _ _ (timerInv_of_frame s (fetchResultsDispatch _ _ _ _ s) h ⟨rfl, rfl, rfl⟩)
    (commitPage_frame _ _)

theorem timerInv_fireTimers (due : List Timer) (s : State) (h : TimerInv s) :
    TimerInv (fireTimers due s) := by
  induction due generalizing s with
  | nil => exact h
  | cons t rest ih =>
    unfold fireTimers
    split
    · apply ih
      apply timerInv_timerCallback
      intro u hu
      exact h u (List.mem_of_mem_erase hu)
    · exact ih s h

theorem timerInv_settle (toLowerCase : String → String) (r : Request) (o : FetchOutcome)
    (s : State) (h : TimerInv s) : TimerInv (fetchResultsSettle toLowerCase r o s) := by
  apply timerInv_of_frame s _ h
  unfold fetchResultsSettle tryBlock
  cases awaitData o <;> exact ⟨rfl, rfl, rfl⟩

theorem timerInv_step (toLowerCase : String → String) (s : State) (e : Event)
    (h : TimerInv s) : TimerInv (step toLowerCase s e) := by
  cases e with
  | changeQuery text =>
    dsimp only [step]
    split
    · exact h
    · exact timerInv_queryEffect _ (timerInv_of_frame s _ h ⟨rfl, rfl, rfl⟩)
  | submit => exact timerInv_of_frame s _ h ⟨rfl, rfl, rfl⟩
  | changeAuthorFilter text =>
    dsimp only [step]
    split
    · exact timerInv_of_frame s _ h ⟨rfl, rfl, rfl⟩
    · exact h
  | changeYearFilter text =>
    dsimp only [step]
    split
    · exact timerInv_of_frame s _ h ⟨rfl, rfl, rfl⟩
    · exact h
  | clearFilters =>
    dsimp only [step]
    split
    · exact timerInv_of_frame s _ h ⟨rfl, rfl, rfl⟩
    · exact h
  | setView v => exact timerInv_of_frame s _ h ⟨rfl, rfl, rfl⟩
  | clickPrev =>
    dsimp only [step]
    split
    · exact timerInv_of_frame s _ h (commitPage_frame _ _)
    · exact h
  | clickNext =>
    dsimp only [step]
    split
    · exact timerInv_of_frame s _ h (commitPage_frame _ _)
    · exact h
  | addFavorite book => exact timerInv_of_frame s _ h ⟨rfl, rfl, rfl⟩
  | removeFavorite key => exact timerInv_of_frame s _ h ⟨rfl, rfl, rfl⟩
  | elapse ms =>
    dsimp only [step]
    exact timerInv_fireTimers _ _ (timerInv_of_frame s _ h ⟨rfl, rfl, rfl⟩)
  | settle i o =>
    dsimp only [step]
    split
    · exact h
    · exact timerInv_settle _ _ _ _ (timerInv_of_frame s _ h ⟨rfl, rfl, rfl⟩)

theorem timerInv_of_reachable (toLowerCase : String → String) (s : State)
    (h : Reachable toLowerCase s) : TimerInv s := by
  induction h with
  | mounted favorites =>
    intro t ht
    exact absurd ht (by simp [mounted, initialState, queryEffect, cancelPending, truthy,
      pageEffect, commitPage, isBlank, trim])
  | step s e _ ih => exact timerInv_step toLowerCase s e ih

/-! ### Query controller: clearing the query -/

theorem isBlank_of_trim (text : String) (h : trim text = "") : isBlank text = true := by
  simp [isBlank, h]

theorem queryEffect_blank (s : State) (h : TimerInv s) (hb : isBlank s.query = true) :
    queryEffect s =
      { s with timers := [], results := [], numFound := 0, error := none, queryCleanup := false,
               page := 1 } := by
  unfold queryEffect
  rw [cancelPending_eq s h]
  dsimp only
  rw [if_pos hb]
  exact commitPage_blank 1 _ hb

/-- C3: in every state the component can reach, changing the query text to a
different text that is empty after trimming yields `results = []`,
`numFound = 0`, `page = 1` and `error = null`, leaves no live timeout, and issues
no fetch: the log of dispatched requests and the requests in flight are as
before, whether or not the page reset runs the `[page]` effect. -/
theorem clear_query (toLowerCase : String → String) (s : State)
    (hs : Reachable toLowerCase s) (text : String) (hchange : text ≠ s.query)
    (hblank : trim text = "") :
    (step toLowerCase s (.changeQuery text)).results = [] ∧
    (step toLowerCase s (.changeQuery text)).numFound = 0 ∧
    (step toLowerCase s (.changeQuery text)).page = 1 ∧
    (step toLowerCase s (.changeQuery text)).error = none ∧
    (step toLowerCase s (.changeQuery text)).timers = [] ∧
    (step toLowerCase s (.changeQuery text)).fetchLog = s.fetchLog ∧
    (step toLowerCase s (.changeQuery text)).inflight = s.inflight := by
  have hinv : TimerInv { s with query := text } :=
    timerInv_of_frame s _ (timerInv_of_reachable toLowerCase s hs) ⟨rfl, rfl, rfl⟩
  have hstep : step toLowerCase s (.changeQuery text) = queryEffect { s with query := text } := by
    dsimp only [step]
    rw [if_neg hchange]
  rw [hstep, queryEffect_blank _ hinv (isBlank_of_trim text hblank)]
  exact ⟨rfl, rfl, rfl, rfl, rfl, rfl, rfl⟩

theorem clear_query_witness :
    (Reachable asciiLower (step asciiLower (mounted []) (.changeQuery "dune")) ∧
      "  " ≠ (step asciiLower (mounted []) (.changeQuery "dune")).query ∧ trim "  " = "") ∧
    (step asciiLower (mounted []) (.changeQuery "dune")).timers ≠ [] ∧
    (step asciiLower (step asciiLower (mounted []) (.changeQuery "dune"))
      (.changeQuery "  ")).timers = [] :=
  ⟨⟨.step _ _ (.mounted []), by decide, by decide⟩, by decide,
   (clear_query asciiLower (step asciiLower (mounted []) (.changeQuery "dune"))
      (.step _ _ (.mounted [])) "  " (by decide) (by decide)).2.2.2.2.1⟩

/-! ### Search client: a non-success status -/

/-- C10: for every query, page and prior state, when the endpoint responds with a
status `status` outside 200-299, `fetchResults` ends in a state (no exception
leaves it) with `error` set to `"HTTP "` followed by the status in decimal,
`loading = false`, and `results` and `numFound` as before the call; and whatever
the state `s₁` is when the response arrives, settling sets `error` and `loading`
so and leaves `results` and `numFound` as they are in `s₁`. -/
theorem fetch_failure (toLowerCase : String → String) (s : State) (q : String) (p : Nat)
    (authorFilter yearFilter : String) (status : Nat) (body : Except String SearchData)
    (hstatus : ¬ (200 ≤ status ∧ status ≤ 299)) :
    ((fetchResultsSettle toLowerCase ⟨q, p, authorFilter, yearFilter⟩ (.response status body)
        (fetchResultsDispatch authorFilter yearFilter q p s)).error =
      some ("HTTP " ++ toString status) ∧
    (fetchResultsSettle toLowerCase ⟨q, p, authorFilter, yearFilter⟩ (.response status body)
        (fetchResultsDispatch authorFilter yearFilter q p s)).loading = false ∧
    (fetchResultsSettle toLowerCase ⟨q, p, authorFilter, yearFilter⟩ (.response status body)
        (fetchResultsDispatch authorFilter yearFilter q p s)).results = s.results ∧
    (fetchResultsSettle toLowerCase ⟨q, p, authorFilter, yearFilter⟩ (.response status body)
        (fetchResultsDispatch authorFilter yearFilter q p s)).numFound = s.numFound) ∧
    ∀ s₁ : State,
      fetchResultsSettle toLowerCase ⟨q, p, authorFilter, yearFilter⟩ (.response status body) s₁ =
        { s₁ with error := some ("HTTP " ++ toString status), loading := false } := by
  have hok : isOk status = false := by
    simp only [isOk, Bool.and_eq_false_iff, decide_eq_false_iff_not]
    omega
  have ha : awaitData (.response status body) = .error ("HTTP " ++ toString status) := by
    simp [awaitData, hok]
  constructor
  · simp [fetchResultsSettle, tryBlock, ha, fetchResultsDispatch, bind, Except.bind]
  · intro s₁
    simp [fetchResultsSettle, tryBlock, ha, bind, Except.bind]

theorem fetch_failure_witness :
    ¬ (200 ≤ 404 ∧ 404 ≤ 299) ∧
    (fetchResultsSettle asciiLower ⟨"dune", 1, "", ""⟩
        (.response 404 (.ok ⟨some 5, none⟩))
        (fetchResultsDispatch "" "" "dune" 1 (mounted []))).error = some "HTTP 404" :=
  ⟨by decide,
   (fetch_failure asciiLower (mounted []) "dune" 1 "" "" 404 (.ok ⟨some 5, none⟩)
      (by decide)).1.1.trans (by decide)⟩

/-! ### Query controller: page changes and the debounce -/

theorem isBlank_dune : isBlank "dune" = false := by decide

theorem step_clickNext_stale (toLowerCase : String → String) (s : State)
    (hv : s.view = .search) (hn : 0 < s.numFound) (hp : s.page < totalPages s.numFound)
    (hb : isBlank s.query = false) (hq : s.lastQueryRef ≠ s.query) :
    step toLowerCase s .clickNext = { s with page := s.page + 1, lastQueryRef := s.query } := by
  have hnext : nextPage s.numFound s.page = s.page + 1 := by
    unfold nextPage
    omega
  dsimp only [step]
  rw [if_pos ⟨hv, hn, by omega⟩, hnext]
  unfold commitPage
  rw [if_neg (by simp)]
  unfold pageEffect
  simp [hb, hq]

theorem timerCallback_double (t : Timer) (s : State) (hp : s.page ≠ 1)
    (hb : isBlank s.query = false) (hq : s.lastQueryRef = s.query) :
    (timerCallback t s).fetchLog = s.fetchLog ++ [(t.query, 1), (s.query, 1)] := by
  unfold timerCallback commitPage
  rw [if_neg (by simpa [fetchResultsDispatch] using Ne.symm hp)]
  simp [pageEffect, fetchResultsDispatch, hb, hq]

set_option maxRecDepth 100000 in
/-- C1, on the code: from the mounted component, after "dune" is typed, the
debounce fires and the endpoint answers `numFound = 120` (one request, for
("dune", 1), was dispatched and is settled; `totalPages = 2`; Next is enabled),
clicking Next sets `page = 2` and dispatches nothing: the log is still the single
request ("dune", 1), no request is in flight, and the click only stored "dune"
in `lastQueryRef`. The claim asks for a fetch of ("dune", 2) here. -/
theorem next_click_after_search_dispatches_nothing :
    (run asciiLower (mounted []) duneSearch).fetchLog = [("dune", 1)] ∧
    (run asciiLower (mounted []) duneSearch).inflight = [] ∧
    (run asciiLower (mounted []) duneSearch).results.length = 100 ∧
    (run asciiLower (mounted []) duneSearch).page = 1 ∧
    (run asciiLower (mounted []) duneSearch).lastQueryRef = "" ∧
    totalPages (run asciiLower (mounted []) duneSearch).numFound = 2 ∧
    (step asciiLower (run asciiLower (mounted []) duneSearch) .clickNext).page = 2 ∧
    (step asciiLower (run asciiLower (mounted []) duneSearch) .clickNext).fetchLog =
      [("dune", 1)] ∧
    (step asciiLower (run asciiLower (mounted []) duneSearch) .clickNext).inflight = [] ∧
    (step asciiLower (run asciiLower (mounted []) duneSearch) .clickNext).lastQueryRef =
      "dune" := by
  decide!

set_option maxRecDepth 100000 in
/-- C2, on the code: in the state reached by searching "dune" and clicking Next
(`page = 2`, `lastQueryRef = "dune"`, one request dispatched so far), the query
is edited to "dunes" and 100 ms later back to "dune". No request is dispatched
while the edits come; when 500 ms have passed after the last edit, two requests
are dispatched, both for ("dune", 1): one by the timeout callback and one by the
`[page]` effect that the reset of the page runs. The claim asks for exactly one. -/
theorem retyped_query_dispatches_twice :
    (run asciiLower (mounted []) (duneSearch ++ [.clickNext])).page = 2 ∧
    (run asciiLower (mounted []) (duneSearch ++ [.clickNext])).lastQueryRef = "dune" ∧
    (run asciiLower (mounted []) (duneSearch ++ [.clickNext])).fetchLog = [("dune", 1)] ∧
    (run asciiLower (mounted []) duneRetyped).fetchLog = [("dune", 1)] ∧
    (run asciiLower (mounted []) (duneRetyped ++ [.elapse 499])).fetchLog = [("dune", 1)] ∧
    (run asciiLower (mounted []) (duneRetyped ++ [.elapse 500])).fetchLog =
      [("dune", 1), ("dune", 1), ("dune", 1)] ∧
    (run asciiLower (mounted []) (duneRetyped ++ [.elapse 500])).inflight =
      [⟨"dune", 1, "", ""⟩, ⟨"dune", 1, "", ""⟩] := by
  decide!

/-! ### The JSON parser: the fuel is enough -/

theorem dropWhile_length (p : Char → Bool) (cs : List Char) :
    (cs.dropWhile p).length ≤ cs.length :=
  (List.dropWhile_sublist _).length_le

theorem skipWs_length (cs : List Char) : (skipWs cs).length ≤ cs.length :=
  dropWhile_length _ cs

theorem skipWs_cons_length (cs rest : List Char) (d : Char) (h : skipWs cs = d :: rest) :
    rest.length + 1 ≤ cs.length := by
  have := skipWs_length cs
  rw [h] at this
  simpa using this

theorem span_snd_length (p : Char → Bool) (cs : List Char) :
    (cs.span p).2.length ≤ cs.length := by
  rw [List.span_eq_take_drop]
  exact dropWhile_length p cs

theorem stringBody_length (n : Nat) : ∀ (cs acc : List Char) (s : String) (rest : List Char),
    cs.length ≤ n → stringBody cs acc = some (s, rest) → rest.length < cs.length := by
  induction n with
  | zero =>
    intro cs acc s rest hlen h
    cases cs with
    | nil => simp [stringBody] at h
    | cons c t => simp at hlen
  | succ n ih =>
    intro cs acc s rest hlen h
    cases cs with
    | nil => simp [stringBody] at h
    | cons c t =>
      unfold stringBody at h
      simp only [List.length_cons] at hlen ⊢
      split at h
      · simp only [Option.some.injEq, Prod.mk.injEq] at h
        rw [h.2]; omega
      · split at h
        · split at h
          · next e rest₁ =>
            simp only [List.length_cons] at hlen ⊢
            split at h
            · have := ih _ _ _ _ (by omega) h
              omega
            · split at h
              · split at h
                · next h₁ h₂ h₃ h₄ rest₂ =>
                  simp only [List.length_cons] at hlen ⊢
                  split at h
                  · have := ih _ _ _ _ (by omega) h
                    omega
                  · simp at h
                · simp at h
              · simp at h
          · simp at h
        · split at h
          · simp at h
          · have := ih _ _ _ _ (by omega) h
            omega

theorem digits1_length (cs ds rest : List Char) (h : digits1 cs = some (ds, rest)) :
    rest.length ≤ cs.length := by
  unfold digits1 at h
  have hsp := span_snd_length isDigit cs
  cases hs : cs.span isDigit with
  | mk a b =>
    rw [hs] at h hsp
    cases a with
    | nil => simp at h
    | cons x xs =>
      simp only [Option.some.injEq, Prod.mk.injEq] at h
      rw [← h.2]
      exact hsp

theorem intPart_length (cs ds rest : List Char) (h : intPart cs = some (ds, rest)) :
    rest.length < cs.length := by
  unfold intPart at h
  split at h
  · simp at h
  · next c t =>
    have := span_snd_length isDigit t
    split at h
    · simp only [Option.some.injEq, Prod.mk.injEq] at h
      rw [← h.2]; simp
    · split at h
      · simp only [Option.some.injEq, Prod.mk.injEq] at h
        rw [← h.2, List.length_cons]; omega
      · simp at h

theorem fracPart_length (cs ds rest : List Char) (h : fracPart cs = some (ds, rest)) :
    rest.length ≤ cs.length := by
  unfold fracPart at h
  split at h
  · next c t =>
    split at h
    · cases hd : digits1 t with
      | none => simp [hd] at h
      | some r =>
        have := digits1_length t r.1 r.2 hd
        simp only [hd, Option.map_some', Option.some.injEq, Prod.mk.injEq] at h
        rw [← h.2, List.length_cons]; omega
    · simp only [Option.some.injEq, Prod.mk.injEq] at h
      rw [← h.2]
  · simp only [Option.some.injEq, Prod.mk.injEq] at h
    rw [← h.2]

theorem expPart_length (cs ds rest : List Char) (h : expPart cs = some (ds, rest)) :
    rest.length ≤ cs.length := by
  unfold expPart at h
  split at h
  · next c t =>
    split at h
    · split at h
      · next sgn t₁ =>
        split at h
        · cases hd : digits1 t₁ with
          | none => simp [hd] at h
          | some r =>
            have := digits1_length t₁ r.1 r.2 hd
            simp only [hd, Option.map_some', Option.some.injEq, Prod.mk.injEq] at h
            rw [← h.2]; simp only [List.length_cons]; omega
        · cases hd : digits1 (sgn :: t₁) with
          | none => simp [hd] at h
          | some r =>
            have := digits1_length (sgn :: t₁) r.1 r.2 hd
            simp only [hd, Option.map_some', Option.some.injEq, Prod.mk.injEq] at h
            rw [← h.2]; simp only [List.length_cons] at this ⊢; omega
      · simp at h
    · simp only [Option.some.injEq, Prod.mk.injEq] at h
      rw [← h.2]
  · simp only [Option.some.injEq, Prod.mk.injEq] at h
    rw [← h.2]

theorem numberLexeme_length (cs : List Char) (n : String) (rest : List Char)
    (h : numberLexeme cs = some (n, rest)) : rest.length < cs.length := by
  unfold numberLexeme at h
  generalize hsg : (match cs with
    | c :: rest => if (c.toNat == 0x2D) = true then ([c], rest) else ([], cs)
    | [] => ([], cs)) = sg at h
  have hsl : sg.2.length ≤ cs.length := by
    rw [← hsg]
    split
    · split <;> simp
    · simp
  obtain ⟨sign, cs₁⟩ := sg
  dsimp only at h hsl
  cases hi : intPart cs₁ with
  | none => simp [hi] at h
  | some r₁ =>
    obtain ⟨i, cs₂⟩ := r₁
    have h1 := intPart_length _ _ _ hi
    simp only [hi] at h
    cases hf : fracPart cs₂ with
    | none => simp [hf] at h
    | some r₂ =>
      obtain ⟨f, cs₃⟩ := r₂
      have h2 := fracPart_length _ _ _ hf
      simp only [hf] at h
      cases he : expPart cs₃ with
      | none => simp [he] at h
      | some r₃ =>
        obtain ⟨e, cs₄⟩ := r₃
        have h3 := expPart_length _ _ _ he
        simp only [he, Option.some.injEq, Prod.mk.injEq] at h
        rw [← h.2]
        omega

theorem afterWord_length (word cs rest : List Char) (hw : word ≠ [])
    (h : afterWord word cs = some rest) : rest.length < cs.length := by
  unfold afterWord at h
  split at h
  · next hp =>
    simp only [Option.some.injEq] at h
    rw [← h, List.length_drop]
    have hpre := List.isPrefixOf_iff_prefix.1 hp
    have := hpre.length_le
    have : 0 < word.length := List.length_pos.2 hw
    omega
  · simp at h

theorem good_error (cs : List Char) :
    (∀ e, (Except.error "SyntaxError" : Except String (Json × List Char)) = .error e →
      e = "SyntaxError") ∧
    (∀ v rest, (Except.error "SyntaxError" : Except String (Json × List Char)) = .ok (v, rest) →
      rest.length < cs.length) := by
  constructor
  · intro e he
    cases he
    rfl
  · intro v rest he
    cases he

theorem good_ok (cs rest₀ : List Char) (v₀ : Json) (h : rest₀.length < cs.length) :
    (∀ e, (Except.ok (v₀, rest₀) : Except String (Json × List Char)) = .error e →
      e = "SyntaxError") ∧
    (∀ v rest, (Except.ok (v₀, rest₀) : Except String (Json × List Char)) = .ok (v, rest) →
      rest.length < cs.length) := by
  constructor
  · intro e he
    cases he
  · intro v rest he
    cases he
    exact h

theorem good_mono (cs cs' : List Char) (r : Except String (Json × List Char))
    (hle : cs'.length ≤ cs.length)
    (h : (∀ e, r = .error e → e = "SyntaxError") ∧
      (∀ v rest, r = .ok (v, rest) → rest.length < cs'.length)) :
    (∀ e, r = .error e → e = "SyntaxError") ∧
    (∀ v rest, r = .ok (v, rest) → rest.length < cs.length) :=
  ⟨h.1, fun v rest he => lt_of_lt_of_le (h.2 v rest he) hle⟩

theorem parse_fuel (fuel : Nat) :
    (∀ cs, 2 * cs.length + 1 ≤ fuel →
      (∀ e, parseValue fuel cs = .error e → e = "SyntaxError") ∧
      (∀ v rest, parseValue fuel cs = .ok (v, rest) → rest.length < cs.length)) ∧
    (∀ cs acc, 2 * cs.length + 2 ≤ fuel →
      (∀ e, parseItems fuel cs acc = .error e → e = "SyntaxError") ∧
      (∀ v rest, parseItems fuel cs acc = .ok (v, rest) → rest.length < cs.length)) ∧
    (∀ cs acc, 2 * cs.length + 2 ≤ fuel →
      (∀ e, parseMembers fuel cs acc = .error e → e = "SyntaxError") ∧
      (∀ v rest, parseMembers fuel cs acc = .ok (v, rest) → rest.length < cs.length)) := by
  induction fuel with
  | zero => refine ⟨?_, ?_, ?_⟩ <;> intros <;> omega
  | succ fuel ih =>
    obtain ⟨ihV, ihI, ihM⟩ := ih
    refine ⟨?_, ?_, ?_⟩
    · intro cs hf
      unfold parseValue
      split
      · exact good_error _
      · next c rest =>
        simp only [List.length_cons] at hf
        split
        · split
          · next d rest₁ hs =>
            have hl := skipWs_cons_length _ _ _ hs
            split
            · exact good_ok _ _ _ (by simp only [List.length_cons]; omega)
            · exact good_mono _ (d :: rest₁) _ (by simp only [List.length_cons]; omega)
                (ihM (d :: rest₁) [] (by simp only [List.length_cons]; omega))
          · exact good_error _
        · split
          · split
            · next d rest₁ hs =>
              have hl := skipWs_cons_length _ _ _ hs
              split
              · exact good_ok _ _ _ (by simp only [List.length_cons]; omega)
              · exact good_mono _ (d :: rest₁) _ (by simp only [List.length_cons]; omega)
                  (ihI (d :: rest₁) [] (by simp only [List.length_cons]; omega))
            · exact good_error _
          · split
            · split
              · next s rest₁ hs =>
                have hl := stringBody_length _ _ _ _ _ (le_refl _) hs
                exact good_ok _ _ _ (by simp only [List.length_cons]; omega)
              · exact good_error _
            · split
              · exact good_ok _ _ _
                  (afterWord_length "true".data _ _ (by decide) (by assumption))
              · exact good_ok _ _ _
                  (afterWord_length "false".data _ _ (by decide) (by assumption))
              · exact good_ok _ _ _
                  (afterWord_length "null".data _ _ (by decide) (by assumption))
              · split
                · next n rest₁ hn => exact good_ok _ _ _ (numberLexeme_length _ _ _ hn)
                · exact good_error _
    · intro cs acc hf
      unfold parseItems
      split
      · next e he => 
        have := (ihV cs (by omega)).1 e he
        subst this
        exact good_error _
      · next v rest hv =>
        have hl := (ihV cs (by omega)).2 v rest hv
        split
        · next d rest₁ hs =>
          have hl2 := skipWs_cons_length _ _ _ hs
          split
          · exact good_ok _ _ _ (by omega)
          · split
            · have hl3 := skipWs_length rest₁
              exact good_mono _ (skipWs rest₁) _ (by omega) (ihI (skipWs rest₁) _ (by omega))
            · exact good_error _
        · exact good_error _
    · intro cs acc hf
      unfold parseMembers
      split
      · next q rest =>
        simp only [List.length_cons] at hf
        split
        · split
          · exact good_error _
          · next k rest₁ hk =>
            have hl1 := stringBody_length _ _ _ _ _ (le_refl _) hk
            split
            · next colon rest₂ hs =>
              have hl2 := skipWs_cons_length _ _ _ hs
              split
              · have hl3 := skipWs_length rest₂
                split
                · next e he =>
                  have := (ihV (skipWs rest₂) (by omega)).1 e he
                  subst this
                  exact good_error _
                · next v rest₃ hv =>
                  have hl4 := (ihV (skipWs rest₂) (by omega)).2 v rest₃ hv
                  split
                  · next d rest₄ hs4 =>
                    have hl5 := skipWs_cons_length _ _ _ hs4
                    split
                    · exact good_ok _ _ _ (by simp only [List.length_cons]; omega)
                    · split
                      · have hl6 := skipWs_length rest₄
                        exact good_mono _ (skipWs rest₄) _ (by simp only [List.length_cons]; omega)
                          (ihM (skipWs rest₄) _ (by omega))
                      · exact good_error _
                  · exact good_error _
              · exact good_error _
            · exact good_error _
        · exact good_error _
      · exact good_error _

theorem jsonParse_error (text message : String) (h : jsonParse text = .error message) :
    message = "SyntaxError" := by
  unfold jsonParse at h
  have hl := skipWs_length text.data
  have hg := (parse_fuel (2 * text.length + 2)).1 (skipWs text.data)
    (by simp only [String.length] at *; omega)
  split at h
  · next e he =>
    cases h
    exact hg.1 _ he
  · split at h
    · cases h
    · cases h
      rfl

/-! ### Favorites initializer -/

/-- C6, as stated, fails: the slot content `{oops` is not parsable JSON, and the
initializer does not give the empty list for it: `JSON.parse` throws and the
exception leaves the initializer. -/
theorem loadFavorites_unparsable_counterexample :
    ¬ (∀ raw : Option String,
        (raw = none ∨ ∃ text, raw = some text ∧ ∀ v, jsonParse text ≠ .ok v) →
        loadFavorites raw = .ok (.array [])) := by
  intro h
  have h1 : loadFavorites (some "\x7boops") = .ok (.array []) :=
    h (some "\x7boops") (Or.inr ⟨"\x7boops", rfl, fun v hv => by
      have he : jsonParse "\x7boops" = .error "SyntaxError" := rfl
      rw [he] at hv
      cases hv⟩)
  have h2 : loadFavorites (some "\x7boops") = .error "SyntaxError" := rfl
  rw [h2] at h1
  cases h1

/-- C6, amended: when the slot is absent or holds the empty string, the initial
favorites state is the empty list; for any other content the initializer gives
what `JSON.parse` gives for it, and when the content is not parsable it fails
with the `SyntaxError` of `JSON.parse`. -/
theorem loadFavorites_spec (raw : Option String) :
    ((raw = none ∨ raw = some "") → loadFavorites raw = .ok (.array [])) ∧
    (∀ text, raw = some text → text ≠ "" → loadFavorites raw = jsonParse text) ∧
    (∀ text, raw = some text → text ≠ "" → (∀ v, jsonParse text ≠ .ok v) →
      loadFavorites raw = .error "SyntaxError") := by
  refine ⟨?_, ?_, ?_⟩
  · rintro (h | h) <;> subst h <;> rfl
  · intro text h hne
    subst h
    simp [loadFavorites, hne]
  · intro text h hne hv
    subst h
    cases hp : jsonParse text with
    | ok v => exact absurd hp (hv v)
    | error message =>
      have hm := jsonParse_error text message hp
      subst hm
      simp [loadFavorites, hne, hp]

theorem loadFavorites_spec_witness :
    (some "[]" = some "[]" ∧ "[]" ≠ "") ∧ loadFavorites (some "[]") = .ok (.array []) :=
  ⟨⟨rfl, by decide⟩,
   ((loadFavorites_spec (some "[]")).2.1 "[]" rfl (by decide)).trans rfl⟩

end BookFinder
